import Mathlib

/-!
Verification development for the igia region-scheduling and
output-multiplexing pipeline (src/igia/skeleton.py).

The pipeline (function main, lines 145-210) iterates linkage regions,
arms a SIGALRM-based deadline per region when configured, numbers the
non-empty gene clusters with a run-global counter, fans element and
isoform records out to ten output streams owned by OutputHandle, logs
timeouts to a sibling append-only file, and propagates every
non-timeout error after the with-statement has closed the streams.

The collaborators find_linkage, identify_element, identify_transcript
and the GeneCluster class live in modules that are not part of the
sources (igia.linkage, igia.element, igia.transcript); following the
specification they are treated as oracles: the run is parameterised by
the list of regions, by the clusters each region would yield, and by
an interrupt oracle saying where (if anywhere) the deadline signal or
a fatal collaborator error strikes inside the region.  The ambient
wall clock is likewise passed as an oracle value; the code never reads
it, which is itself one of the verified facts.
-/

/-- Model of a linkage region as produced by linkage.iterlinkage()
(line 182 unpacks the triple chrom, start, end; the third component is
called stop here because end is a Lean keyword). -/
structure Region where
  chrom : String
  start : Nat
  stop : Nat
deriving DecidableEq, Repr

/-- Model of the command-line configuration relevant to the scheduler:
args.time_out (line 62, default None). -/
structure Config where
  time_out : Option Nat
deriving DecidableEq, Repr

/-- Modelled from the spec: the TranscriptSet returned by the missing
collaborator identify_transcript, holding the isoform records that
trans.write2bed12 (line 201) will write, one list per isoform
category, in the order of isoform_handles() (lines 114-115). -/
structure TranscriptSet where
  isoF : List String := []
  isoA : List String := []
  isoR : List String := []
  isoM : List String := []
  isoC : List String := []
  isoP : List String := []
deriving DecidableEq, Repr

/-- Modelled from the spec: a GeneCluster candidate returned by the
missing collaborator identify_element, holding its element records per
element category, in the order of element_handles() (lines 111-112),
together with the TranscriptSet that identify_transcript would return
for it. -/
structure GeneCluster where
  intron : List String := []
  internal_exon : List String := []
  tss_exon : List String := []
  tes_exon : List String := []
  trans : TranscriptSet := {}
deriving DecidableEq, Repr

/-- Modelled from the spec: gene_cluster.has_element() (line 193) is
the predicate deciding whether the candidate cluster has at least one
element (spec 4.1 step 4). -/
def GeneCluster.has_element (c : GeneCluster) : Bool :=
  !(c.intron.isEmpty && c.internal_exon.isEmpty &&
    c.tss_exon.isEmpty && c.tes_exon.isEmpty)

/-- Modelled from the spec: identify_transcript(gene_cluster, ann)
(line 200) returns the TranscriptSet of the cluster. -/
def identify_transcript (c : GeneCluster) : TranscriptSet :=
  c.trans

/-- The ClusterId label formatted at line 196: "c_" followed by the
value of the run-global counter. -/
def cluster_name (i : Nat) : String :=
  "c_" ++ toString i

/-- A record in an output stream: the payload fields followed by the
trailing ClusterId label the record was written with. -/
abbrev Entry := String × String

/-- The ten stream contents owned by OutputHandle (lines 96-105), one
list of committed records per stream, in the order they are opened. -/
structure Streams where
  f_intron : List Entry := []
  f_internal_exon : List Entry := []
  f_tss_exon : List Entry := []
  f_tes_exon : List Entry := []
  f_isoF : List Entry := []
  f_isoA : List Entry := []
  f_isoR : List Entry := []
  f_isoM : List Entry := []
  f_isoC : List Entry := []
  f_isoP : List Entry := []
deriving DecidableEq, Repr

/-- The empty stream bundle produced by a successful enter. -/
def emptyStreams : Streams := {}

/-- Tag a list of payloads with one ClusterId label. -/
def tagWith (name : String) (recs : List String) : List Entry :=
  recs.map (fun p => (p, name))

/-- gene_cluster.write_element2bed6(*f_out.element_handles(),
cluster_name) (line 197): append the element records of the cluster,
tagged with its ClusterId label, to the four element streams. -/
def GeneCluster.write_element2bed6 (c : GeneCluster) (name : String)
    (s : Streams) : Streams :=
  { s with
    f_intron := s.f_intron ++ tagWith name c.intron
    f_internal_exon := s.f_internal_exon ++ tagWith name c.internal_exon
    f_tss_exon := s.f_tss_exon ++ tagWith name c.tss_exon
    f_tes_exon := s.f_tes_exon ++ tagWith name c.tes_exon }

/-- trans.write2bed12(cluster_name, *f_out.isoform_handles())
(line 201): append the isoform records, tagged with the ClusterId
label, to the six isoform streams. -/
def TranscriptSet.write2bed12 (t : TranscriptSet) (name : String)
    (s : Streams) : Streams :=
  { s with
    f_isoF := s.f_isoF ++ tagWith name t.isoF
    f_isoA := s.f_isoA ++ tagWith name t.isoA
    f_isoR := s.f_isoR ++ tagWith name t.isoR
    f_isoM := s.f_isoM ++ tagWith name t.isoM
    f_isoC := s.f_isoC ++ tagWith name t.isoC
    f_isoP := s.f_isoP ++ tagWith name t.isoP }

/-- All records committed across the ten streams, in stream order. -/
def allRecords (s : Streams) : List Entry :=
  s.f_intron ++ s.f_internal_exon ++ s.f_tss_exon ++ s.f_tes_exon ++
  s.f_isoF ++ s.f_isoA ++ s.f_isoR ++ s.f_isoM ++ s.f_isoC ++ s.f_isoP

/-- The ClusterId labels carried by the committed records. -/
def writtenLabels (s : Streams) : List String :=
  (allRecords s).map Prod.snd

/-- ys extends xs by appending: the append-only growth order on one
stream. -/
def ListExt (xs ys : List Entry) : Prop :=
  ∃ t, ys = xs ++ t

/-- Pointwise append-only growth across the ten streams. -/
def StreamsExt (s t : Streams) : Prop :=
  ListExt s.f_intron t.f_intron ∧
  ListExt s.f_internal_exon t.f_internal_exon ∧
  ListExt s.f_tss_exon t.f_tss_exon ∧
  ListExt s.f_tes_exon t.f_tes_exon ∧
  ListExt s.f_isoF t.f_isoF ∧
  ListExt s.f_isoA t.f_isoA ∧
  ListExt s.f_isoR t.f_isoR ∧
  ListExt s.f_isoM t.f_isoM ∧
  ListExt s.f_isoC t.f_isoC ∧
  ListExt s.f_isoP t.f_isoP

theorem listExt_refl (xs : List Entry) : ListExt xs xs :=
  ⟨[], by simp⟩

theorem listExt_trans {xs ys zs : List Entry}
    (h₁ : ListExt xs ys) (h₂ : ListExt ys zs) : ListExt xs zs := by
  obtain ⟨t₁, rfl⟩ := h₁
  obtain ⟨t₂, rfl⟩ := h₂
  exact ⟨t₁ ++ t₂, by simp⟩

theorem listExt_append (xs t : List Entry) : ListExt xs (xs ++ t) :=
  ⟨t, rfl⟩

theorem streamsExt_refl (s : Streams) : StreamsExt s s := by
  refine ⟨?_, ?_, ?_, ?_, ?_, ?_, ?_, ?_, ?_, ?_⟩ <;> exact listExt_refl _

theorem streamsExt_trans {s t u : Streams}
    (h₁ : StreamsExt s t) (h₂ : StreamsExt t u) : StreamsExt s u := by
  obtain ⟨a1, a2, a3, a4, a5, a6, a7, a8, a9, a10⟩ := h₁
  obtain ⟨b1, b2, b3, b4, b5, b6, b7, b8, b9, b10⟩ := h₂
  exact ⟨listExt_trans a1 b1, listExt_trans a2 b2, listExt_trans a3 b3,
    listExt_trans a4 b4, listExt_trans a5 b5, listExt_trans a6 b6,
    listExt_trans a7 b7, listExt_trans a8 b8, listExt_trans a9 b9,
    listExt_trans a10 b10⟩

theorem streamsExt_write_element2bed6 (c : GeneCluster) (name : String)
    (s : Streams) : StreamsExt s (c.write_element2bed6 name s) := by
  refine ⟨?_, ?_, ?_, ?_, ?_, ?_, ?_, ?_, ?_, ?_⟩ <;>
    first
      | exact listExt_append _ _
      | exact listExt_refl _

theorem streamsExt_write2bed12 (t : TranscriptSet) (name : String)
    (s : Streams) : StreamsExt s (t.write2bed12 name s) := by
  refine ⟨?_, ?_, ?_, ?_, ?_, ?_, ?_, ?_, ?_, ?_⟩ <;>
    first
      | exact listExt_append _ _
      | exact listExt_refl _

/-- The windows inside the per-cluster body (lines 192-201) at which
the SIGALRM deadline signal can strike while the i-th non-empty
cluster is being handled.  Python delivers signals between bytecode
instructions, so the signal can land between any two statements of the
body; record writes are taken as atomic.  A strike while empty
clusters are being skipped has exactly the effects of beforeIncr at
the next non-empty cluster (or of the after-loop window), so phases
are indexed by non-empty clusters only. -/
inductive TPhase
  /-- before the counter increment at line 195 -/
  | beforeIncr
  /-- after the increment, before write_element2bed6 at line 197 -/
  | beforeElemWrite
  /-- after write_element2bed6, before write2bed12 at line 201
  (typically during identify_transcript) -/
  | beforeIsoWrite
deriving DecidableEq, Repr

/-- Oracle describing where, if anywhere, the deadline signal or a
fatal collaborator error strikes during one region (lines 183-204). -/
inductive Interrupt
  /-- the region runs to completion -/
  | none
  /-- the deadline elapses during identify_element (lines 187-189) -/
  | timeoutInIdentify
  /-- identify_element raises a non-timeout error -/
  | fatalInIdentify
  /-- the deadline elapses while the i-th non-empty cluster is being
  handled, at the given window; an index at or past the number of
  non-empty clusters with phase beforeIncr models the window between
  the end of the loop and signal.alarm(0) at line 204 -/
  | timeout (i : Nat) (p : TPhase)
  /-- identify_transcript of the i-th non-empty cluster (line 200)
  raises a non-timeout error -/
  | fatalInTranscript (i : Nat)
deriving DecidableEq, Repr

/-- Whether the alarm is armed for a region: lines 184-186 call
signal.alarm(args.time_out) only when args.time_out is not None, and
signal.alarm(0) does not schedule a signal, so only a positive
configured deadline arms the timer. -/
def timerArmed (cfg : Config) : Bool :=
  match cfg.time_out with
  | Option.none => false
  | Option.some t => decide (0 < t)

/-- The interrupt that can actually strike: when the timer is never
armed, SIGALRM is never delivered, so TimeOutError cannot be raised
and the timeout cases of the oracle are inert. -/
def effIntr (cfg : Config) (i : Interrupt) : Interrupt :=
  if timerArmed cfg then i
  else
    match i with
    | .timeoutInIdentify => .none
    | .timeout _ _ => .none
    | _ => i

/-- Outcome of one region: normal completion, TimeOutError caught at
line 205, or a fatal error propagating out of main. -/
inductive ROutcome
  | completed
  | timedOut
  | fatalErr
deriving DecidableEq, Repr

/-- Residual interrupt oracle while the cluster loop (lines 192-202)
is running. -/
inductive LoopIntr
  | none
  | timeout (i : Nat) (p : TPhase)
  | fatal (i : Nat)
deriving DecidableEq, Repr

/-- The cluster loop of lines 192-202, started at stream state s with
the run-global counter cluster_indx = cnt, over the clusters returned
by identify_element, under the residual interrupt oracle.  Returns the
stream state, the counter, and the outcome. -/
def processClusters (s : Streams) (cnt : Nat) (cs : List GeneCluster)
    (li : LoopIntr) : Streams × Nat × ROutcome :=
  match cs with
  | [] =>
    match li with
    | .timeout _ .beforeIncr => (s, cnt, .timedOut)
    | _ => (s, cnt, .completed)
  | c :: rest =>
    if c.has_element then
      match li with
      | .timeout 0 .beforeIncr => (s, cnt, .timedOut)
      | .timeout 0 .beforeElemWrite => (s, cnt + 1, .timedOut)
      | .timeout 0 .beforeIsoWrite =>
        (c.write_element2bed6 (cluster_name (cnt + 1)) s, cnt + 1, .timedOut)
      | .fatal 0 =>
        (c.write_element2bed6 (cluster_name (cnt + 1)) s, cnt + 1, .fatalErr)
      | .timeout (i + 1) p =>
        processClusters
          ((identify_transcript c).write2bed12 (cluster_name (cnt + 1))
            (c.write_element2bed6 (cluster_name (cnt + 1)) s))
          (cnt + 1) rest (.timeout i p)
      | .fatal (i + 1) =>
        processClusters
          ((identify_transcript c).write2bed12 (cluster_name (cnt + 1))
            (c.write_element2bed6 (cluster_name (cnt + 1)) s))
          (cnt + 1) rest (.fatal i)
      | .none =>
        processClusters
          ((identify_transcript c).write2bed12 (cluster_name (cnt + 1))
            (c.write_element2bed6 (cluster_name (cnt + 1)) s))
          (cnt + 1) rest .none
    else
      processClusters s cnt rest li

/-- One region, as processed by the iteration body of lines 183-208:
the clusters are the oracle result of identify_element for the region,
the interrupt oracle is filtered through the armed-timer condition. -/
structure RegionInput where
  region : Region
  clusters : List GeneCluster
  intr : Interrupt
deriving DecidableEq, Repr

/-- The loop body of main for one region (lines 183-204), before the
TimeOutError handler: stream state, counter and outcome. -/
def processRegion (cfg : Config) (s : Streams) (cnt : Nat)
    (inp : RegionInput) : Streams × Nat × ROutcome :=
  match effIntr cfg inp.intr with
  | .none => processClusters s cnt inp.clusters .none
  | .timeoutInIdentify => (s, cnt, .timedOut)
  | .fatalInIdentify => (s, cnt, .fatalErr)
  | .timeout i p => processClusters s cnt inp.clusters (.timeout i p)
  | .fatalInTranscript i => processClusters s cnt inp.clusters (.fatal i)

/-- The outcome of the cluster loop, independently of the stream state
and counter it starts from. -/
def loopOutcome (cs : List GeneCluster) (li : LoopIntr) : ROutcome :=
  match cs with
  | [] =>
    match li with
    | .timeout _ .beforeIncr => .timedOut
    | _ => .completed
  | c :: rest =>
    if c.has_element then
      match li with
      | .timeout 0 .beforeIncr => .timedOut
      | .timeout 0 .beforeElemWrite => .timedOut
      | .timeout 0 .beforeIsoWrite => .timedOut
      | .fatal 0 => .fatalErr
      | .timeout (i + 1) p => loopOutcome rest (.timeout i p)
      | .fatal (i + 1) => loopOutcome rest (.fatal i)
      | .none => loopOutcome rest .none
    else
      loopOutcome rest li

/-- The outcome of one region, independently of stream state and
counter. -/
def regionOutcome (cfg : Config) (inp : RegionInput) : ROutcome :=
  match effIntr cfg inp.intr with
  | .none => loopOutcome inp.clusters .none
  | .timeoutInIdentify => .timedOut
  | .fatalInIdentify => .fatalErr
  | .timeout i p => loopOutcome inp.clusters (.timeout i p)
  | .fatalInTranscript i => loopOutcome inp.clusters (.fatal i)

theorem processClusters_outcome (s : Streams) (cnt : Nat)
    (cs : List GeneCluster) (li : LoopIntr) :
    (processClusters s cnt cs li).2.2 = loopOutcome cs li := by
  induction cs generalizing s cnt li with
  | nil => cases li with
    | timeout i p => cases p <;> rfl
    | _ => rfl
  | cons c rest ih =>
    by_cases hc : c.has_element
    · cases li with
      | none => simp only [processClusters, loopOutcome, hc, if_true]; exact ih ..
      | timeout i p =>
        cases i with
        | zero => cases p <;> simp [processClusters, loopOutcome, hc]
        | succ j =>
          simp only [processClusters, loopOutcome, hc, if_true]
          exact ih ..
      | fatal i =>
        cases i with
        | zero => simp [processClusters, loopOutcome, hc]
        | succ j =>
          simp only [processClusters, loopOutcome, hc, if_true]
          exact ih ..
    · simp only [processClusters, loopOutcome, hc, if_false, Bool.false_eq_true]
      exact ih ..

theorem processRegion_outcome (cfg : Config) (s : Streams) (cnt : Nat)
    (inp : RegionInput) :
    (processRegion cfg s cnt inp).2.2 = regionOutcome cfg inp := by
  unfold processRegion regionOutcome
  cases effIntr cfg inp.intr <;>
    first
      | rfl
      | exact processClusters_outcome ..

/-- State threaded through the region loop of main: the ten stream
contents, the run-global counter cluster_indx (line 180), and the
content of the sibling timeout log file, where Option.none means the
file does not exist. -/
structure RunState where
  streams : Streams
  cluster_indx : Nat
  timeoutLog : Option (List String)
deriving DecidableEq, Repr

/-- The line written at line 208 for a timed-out region: it is built
from the configured deadline and the region identity only; nothing in
the format reads a clock. -/
def timeoutLogLine (t : Nat) (r : Region) : String :=
  "TimeOut (" ++ toString t ++ "s): " ++ r.chrom ++ "\t" ++
    toString r.start ++ "\t" ++ toString r.stop ++ "\n"

/-- Opening the log with mode "a" (line 207) creates the file when it
is absent and appends to it otherwise. -/
def appendLog (log : Option (List String)) (l : String) :
    Option (List String) :=
  Option.some (log.getD [] ++ [l])

/-- The region loop of main (lines 182-208).  Each region is processed
by processRegion; a caught TimeOutError appends one log line (only
reachable when a deadline is configured, so getD 0 is never the
surfacing value); a fatal outcome stops the loop and is propagated as
Except.error.  The clock argument is the ambient wall clock at the
moment the loop runs; the code never reads it. -/
def runRegions (cfg : Config) (clock : Nat) (st : RunState)
    (rs : List RegionInput) : RunState × Except Unit Unit :=
  match rs with
  | [] => (st, .ok ())
  | inp :: rest =>
    let out := processRegion cfg st.streams st.cluster_indx inp
    match out.2.2 with
    | .completed =>
      runRegions cfg clock
        { st with streams := out.1, cluster_indx := out.2.1 } rest
    | .timedOut =>
      runRegions cfg clock
        { streams := out.1, cluster_indx := out.2.1,
          timeoutLog := appendLog st.timeoutLog
            (timeoutLogLine (cfg.time_out.getD 0) inp.region) } rest
    | .fatalErr =>
      ({ st with streams := out.1, cluster_indx := out.2.1 }, .error ())

/-- The log lines the run will append: one line per timed-out region,
in order, stopping at the first fatal region. -/
def timeoutLines (cfg : Config) (rs : List RegionInput) : List String :=
  match rs with
  | [] => []
  | inp :: rest =>
    if regionOutcome cfg inp = .fatalErr then []
    else if regionOutcome cfg inp = .timedOut then
      timeoutLogLine (cfg.time_out.getD 0) inp.region :: timeoutLines cfg rest
    else timeoutLines cfg rest

/-- One of the ten files owned by OutputHandle: its committed records
and whether it has been closed.  Closing an already-closed Python file
is a no-op, so closing is modelled as setting the flag. -/
structure StreamFile where
  recs : List Entry
  closed : Bool
deriving DecidableEq, Repr

/-- The OutputHandle object (lines 89-127): one optional attribute per
stream, in the order the attributes are assigned in enter
(lines 96-105).  Option.none models an attribute that was never
assigned because the corresponding open raised, in which case every
later attribute is also unassigned. -/
structure OutputHandle where
  f_intron : Option StreamFile
  f_internal_exon : Option StreamFile
  f_tss_exon : Option StreamFile
  f_tes_exon : Option StreamFile
  f_isoF : Option StreamFile
  f_isoA : Option StreamFile
  f_isoR : Option StreamFile
  f_isoM : Option StreamFile
  f_isoC : Option StreamFile
  f_isoP : Option StreamFile
deriving DecidableEq, Repr

/-- One statement of close (lines 118-127): if an earlier statement
already raised, the rest of the body does not run; reading a missing
attribute raises AttributeError; otherwise the file is flushed and
closed. -/
def closeOne (st : OutputHandle × Option String)
    (get : OutputHandle → Option StreamFile)
    (set : OutputHandle → Option StreamFile → OutputHandle)
    (name : String) : OutputHandle × Option String :=
  match st with
  | (h, Option.some e) => (h, Option.some e)
  | (h, Option.none) =>
    match get h with
    | Option.none => (h, Option.some ("AttributeError: " ++ name))
    | Option.some f =>
      (set h (Option.some { f with closed := true }), Option.none)

/-- OutputHandle.close (lines 117-127): close the ten files in
attribute order; the second component is the exception the call
raises, if any. -/
def OutputHandle.close (h : OutputHandle) : OutputHandle × Option String :=
  let st := closeOne (h, Option.none)
    (fun o => o.f_intron) (fun o v => { o with f_intron := v }) "f_intron"
  let st := closeOne st
    (fun o => o.f_internal_exon) (fun o v => { o with f_internal_exon := v })
    "f_internal_exon"
  let st := closeOne st
    (fun o => o.f_tss_exon) (fun o v => { o with f_tss_exon := v }) "f_tss_exon"
  let st := closeOne st
    (fun o => o.f_tes_exon) (fun o v => { o with f_tes_exon := v }) "f_tes_exon"
  let st := closeOne st
    (fun o => o.f_isoF) (fun o v => { o with f_isoF := v }) "f_isoF"
  let st := closeOne st
    (fun o => o.f_isoA) (fun o v => { o with f_isoA := v }) "f_isoA"
  let st := closeOne st
    (fun o => o.f_isoR) (fun o v => { o with f_isoR := v }) "f_isoR"
  let st := closeOne st
    (fun o => o.f_isoM) (fun o v => { o with f_isoM := v }) "f_isoM"
  let st := closeOne st
    (fun o => o.f_isoC) (fun o v => { o with f_isoC := v }) "f_isoC"
  let st := closeOne st
    (fun o => o.f_isoP) (fun o v => { o with f_isoP := v }) "f_isoP"
  st

/-- Whether all ten attributes were assigned, as after a fully
successful enter. -/
def allOpen (h : OutputHandle) : Bool :=
  h.f_intron.isSome && h.f_internal_exon.isSome && h.f_tss_exon.isSome &&
  h.f_tes_exon.isSome && h.f_isoF.isSome && h.f_isoA.isSome &&
  h.f_isoR.isSome && h.f_isoM.isSome && h.f_isoC.isSome && h.f_isoP.isSome

/-- Whether all ten attributes are assigned and closed. -/
def allClosed (h : OutputHandle) : Bool :=
  (h.f_intron.map (·.closed)).getD false &&
  (h.f_internal_exon.map (·.closed)).getD false &&
  (h.f_tss_exon.map (·.closed)).getD false &&
  (h.f_tes_exon.map (·.closed)).getD false &&
  (h.f_isoF.map (·.closed)).getD false &&
  (h.f_isoA.map (·.closed)).getD false &&
  (h.f_isoR.map (·.closed)).getD false &&
  (h.f_isoM.map (·.closed)).getD false &&
  (h.f_isoC.map (·.closed)).getD false &&
  (h.f_isoP.map (·.closed)).getD false

/-- The handle after a fully successful enter holding the given stream
contents, all ten files open. -/
def toHandle (s : Streams) : OutputHandle :=
  { f_intron := Option.some ⟨s.f_intron, false⟩
    f_internal_exon := Option.some ⟨s.f_internal_exon, false⟩
    f_tss_exon := Option.some ⟨s.f_tss_exon, false⟩
    f_tes_exon := Option.some ⟨s.f_tes_exon, false⟩
    f_isoF := Option.some ⟨s.f_isoF, false⟩
    f_isoA := Option.some ⟨s.f_isoA, false⟩
    f_isoR := Option.some ⟨s.f_isoR, false⟩
    f_isoM := Option.some ⟨s.f_isoM, false⟩
    f_isoC := Option.some ⟨s.f_isoC, false⟩
    f_isoP := Option.some ⟨s.f_isoP, false⟩ }

/-- check_paraclu (lines 135-143): when a paraclu path is supplied,
require both files under it to exist, in order; otherwise do nothing.
os.path.join of a directory and a name is modelled as slash
concatenation; the isfile oracle is the state of the filesystem. -/
def check_paraclu (paraclu_path : Option String)
    (isfile : String → Bool) : Except String Unit :=
  match paraclu_path with
  | Option.none => .ok ()
  | Option.some p =>
    if !isfile (p ++ "/paraclu") then
      .error ("Can not find file: " ++ p ++ "/paraclu")
    else if !isfile (p ++ "/paraclu-cut.sh") then
      .error ("Can not find file: " ++ p ++ "/paraclu-cut.sh")
    else .ok ()

/-- The ways main can terminate abnormally: the FileNotFoundError from
check_paraclu, or a fatal collaborator error propagated out of the
region loop.  Either uncaught exception makes the interpreter exit
with a non-zero status. -/
inductive MainErr
  | fileNotFound (msg : String)
  | fatalCollab
deriving DecidableEq, Repr

/-- The externally visible state main leaves behind: whether the
output directory was created, the ten-stream handle if one was ever
opened, and the timeout log file content. -/
structure MainState where
  out_dir_created : Bool
  handle : Option OutputHandle
  timeoutLog : Option (List String)
deriving DecidableEq, Repr

/-- The main entry point (lines 145-210) at the granularity the claims
need: check_paraclu runs first (line 152) and a failure there aborts
before the output directory is created, before any stream is opened
and before any region is processed; otherwise the with-statement of
line 181 opens the ten streams, the region loop runs, and the
with-exit (lines 108-109) calls close() on every path out of the loop,
normal or fatal.  initLog is the timeout log file content already on
disk when the run starts (the file is opened in append mode). -/
def mainModel (cfg : Config) (paraclu_path : Option String)
    (isfile : String → Bool) (clock : Nat)
    (initLog : Option (List String)) (rs : List RegionInput) :
    MainState × Except MainErr Unit :=
  match check_paraclu paraclu_path isfile with
  | .error msg =>
    ({ out_dir_created := false, handle := Option.none, timeoutLog := initLog },
      .error (.fileNotFound msg))
  | .ok _ =>
    let run := runRegions cfg clock
      { streams := emptyStreams, cluster_indx := 0, timeoutLog := initLog } rs
    let closed := (toHandle run.1.streams).close
    ({ out_dir_created := true, handle := Option.some closed.1,
       timeoutLog := run.1.timeoutLog },
      match run.2 with
      | .ok _ => .ok ()
      | .error _ => .error .fatalCollab)

theorem snd_eq_of_mem_tagWith {e : Entry} {nm : String} {l : List String}
    (h : e ∈ tagWith nm l) : e.2 = nm := by
  rw [tagWith, List.mem_map] at h
  obtain ⟨q, _, he⟩ := h
  rw [← he]

theorem mem_tagWith_of_mem {p nm : String} {l : List String}
    (hp : p ∈ l) : ((p, nm) : Entry) ∈ tagWith nm l := by
  rw [tagWith, List.mem_map]
  exact ⟨p, hp, rfl⟩

theorem mem_writtenLabels_iff (s : Streams) (x : String) :
    x ∈ writtenLabels s ↔ ∃ e ∈ allRecords s, e.2 = x := by
  rw [writtenLabels, List.mem_map]

theorem allRecords_sublist_of_ext {s t : Streams}
    (hext : StreamsExt s t) : (allRecords s).Sublist (allRecords t) := by
  obtain ⟨⟨t1, h1⟩, ⟨t2, h2⟩, ⟨t3, h3⟩, ⟨t4, h4⟩, ⟨t5, h5⟩,
    ⟨t6, h6⟩, ⟨t7, h7⟩, ⟨t8, h8⟩, ⟨t9, h9⟩, ⟨t10, h10⟩⟩ := hext
  rw [allRecords, allRecords, h1, h2, h3, h4, h5, h6, h7, h8, h9, h10]
  exact (((((((((List.sublist_append_left _ _).append
    (List.sublist_append_left _ _)).append
    (List.sublist_append_left _ _)).append
    (List.sublist_append_left _ _)).append
    (List.sublist_append_left _ _)).append
    (List.sublist_append_left _ _)).append
    (List.sublist_append_left _ _)).append
    (List.sublist_append_left _ _)).append
    (List.sublist_append_left _ _)).append
    (List.sublist_append_left _ _)

theorem mem_labels_of_ext {s t : Streams} {x : String}
    (hext : StreamsExt s t) (hx : x ∈ writtenLabels s) :
    x ∈ writtenLabels t := by
  rw [mem_writtenLabels_iff] at hx ⊢
  obtain ⟨e, he, hex⟩ := hx
  exact ⟨e, (allRecords_sublist_of_ext hext).mem he, hex⟩

theorem mem_allRecords_write_element2bed6 (c : GeneCluster) (nm : String)
    (s : Streams) (e : Entry) :
    e ∈ allRecords (c.write_element2bed6 nm s) ↔
      e ∈ allRecords s ∨ e ∈ tagWith nm c.intron ∨
      e ∈ tagWith nm c.internal_exon ∨ e ∈ tagWith nm c.tss_exon ∨
      e ∈ tagWith nm c.tes_exon := by
  simp only [allRecords, GeneCluster.write_element2bed6, List.mem_append]
  tauto

theorem mem_allRecords_write2bed12 (t : TranscriptSet) (nm : String)
    (s : Streams) (e : Entry) :
    e ∈ allRecords (t.write2bed12 nm s) ↔
      e ∈ allRecords s ∨ e ∈ tagWith nm t.isoF ∨ e ∈ tagWith nm t.isoA ∨
      e ∈ tagWith nm t.isoR ∨ e ∈ tagWith nm t.isoM ∨
      e ∈ tagWith nm t.isoC ∨ e ∈ tagWith nm t.isoP := by
  simp only [allRecords, TranscriptSet.write2bed12, List.mem_append]
  tauto

theorem mem_labels_write_element2bed6 {c : GeneCluster} {nm : String}
    {s : Streams} {x : String}
    (hx : x ∈ writtenLabels (c.write_element2bed6 nm s)) :
    x ∈ writtenLabels s ∨ x = nm := by
  rw [mem_writtenLabels_iff] at hx
  obtain ⟨e, he, hex⟩ := hx
  rcases (mem_allRecords_write_element2bed6 c nm s e).1 he with
    h | h | h | h | h
  · exact Or.inl ((mem_writtenLabels_iff s x).2 ⟨e, h, hex⟩)
  · exact Or.inr (hex ▸ snd_eq_of_mem_tagWith h)
  · exact Or.inr (hex ▸ snd_eq_of_mem_tagWith h)
  · exact Or.inr (hex ▸ snd_eq_of_mem_tagWith h)
  · exact Or.inr (hex ▸ snd_eq_of_mem_tagWith h)

theorem mem_labels_write2bed12 {t : TranscriptSet} {nm : String}
    {s : Streams} {x : String}
    (hx : x ∈ writtenLabels (t.write2bed12 nm s)) :
    x ∈ writtenLabels s ∨ x = nm := by
  rw [mem_writtenLabels_iff] at hx
  obtain ⟨e, he, hex⟩ := hx
  rcases (mem_allRecords_write2bed12 t nm s e).1 he with
    h | h | h | h | h | h | h
  · exact Or.inl ((mem_writtenLabels_iff s x).2 ⟨e, h, hex⟩)
  all_goals exact Or.inr (hex ▸ snd_eq_of_mem_tagWith h)

theorem mem_labels_write_both {c : GeneCluster} {nm : String}
    {s : Streams} {x : String}
    (hx : x ∈ writtenLabels
      ((identify_transcript c).write2bed12 nm (c.write_element2bed6 nm s))) :
    x ∈ writtenLabels s ∨ x = nm := by
  rcases mem_labels_write2bed12 hx with h | h
  · exact mem_labels_write_element2bed6 h
  · exact Or.inr h

theorem nonempty_of_has_element {c : GeneCluster}
    (hc : c.has_element = true) :
    c.intron ≠ [] ∨ c.internal_exon ≠ [] ∨ c.tss_exon ≠ [] ∨
      c.tes_exon ≠ [] := by
  by_contra hall
  push_neg at hall
  obtain ⟨h1, h2, h3, h4⟩ := hall
  simp [GeneCluster.has_element, h1, h2, h3, h4] at hc

theorem name_mem_labels_write_element2bed6 {c : GeneCluster}
    (nm : String) (s : Streams) (hc : c.has_element = true) :
    nm ∈ writtenLabels (c.write_element2bed6 nm s) := by
  rw [mem_writtenLabels_iff]
  rcases nonempty_of_has_element hc with h | h | h | h <;>
    obtain ⟨p, hp⟩ := List.exists_mem_of_ne_nil _ h
  · exact ⟨(p, nm), (mem_allRecords_write_element2bed6 ..).2
      (Or.inr (Or.inl (mem_tagWith_of_mem hp))), rfl⟩
  · exact ⟨(p, nm), (mem_allRecords_write_element2bed6 ..).2
      (Or.inr (Or.inr (Or.inl (mem_tagWith_of_mem hp)))), rfl⟩
  · exact ⟨(p, nm), (mem_allRecords_write_element2bed6 ..).2
      (Or.inr (Or.inr (Or.inr (Or.inl (mem_tagWith_of_mem hp))))), rfl⟩
  · exact ⟨(p, nm), (mem_allRecords_write_element2bed6 ..).2
      (Or.inr (Or.inr (Or.inr (Or.inr (mem_tagWith_of_mem hp))))), rfl⟩

theorem name_mem_labels_write_both {c : GeneCluster} (nm : String)
    (s : Streams) (hc : c.has_element = true) :
    nm ∈ writtenLabels
      ((identify_transcript c).write2bed12 nm (c.write_element2bed6 nm s)) :=
  mem_labels_of_ext (streamsExt_write2bed12 ..)
    (name_mem_labels_write_element2bed6 nm s hc)

theorem streamsExt_write_both (c : GeneCluster) (nm : String) (s : Streams) :
    StreamsExt s
      ((identify_transcript c).write2bed12 nm (c.write_element2bed6 nm s)) :=
  streamsExt_trans (streamsExt_write_element2bed6 c nm s)
    (streamsExt_write2bed12 ..)

theorem loopOutcome_none (cs : List GeneCluster) :
    loopOutcome cs .none = .completed := by
  induction cs with
  | nil => rfl
  | cons c rest ih =>
    by_cases hc : c.has_element <;> simp [loopOutcome, hc, ih]

theorem loopOutcome_fatal_ne_timedOut (cs : List GeneCluster) (i : Nat) :
    loopOutcome cs (.fatal i) ≠ .timedOut := by
  induction cs generalizing i with
  | nil => intro h; exact absurd h (by simp [loopOutcome])
  | cons c rest ih =>
    by_cases hc : c.has_element
    · cases i with
      | zero => simp [loopOutcome, hc]
      | succ j => simp only [loopOutcome, hc, if_true]; exact ih j
    · simp only [loopOutcome, hc, if_false, Bool.false_eq_true]
      exact ih i

theorem processClusters_cnt_le (s : Streams) (cnt : Nat)
    (cs : List GeneCluster) (li : LoopIntr) :
    cnt ≤ (processClusters s cnt cs li).2.1 := by
  induction cs generalizing s cnt li with
  | nil =>
    cases li with
    | timeout i p => cases p <;> simp [processClusters]
    | _ => simp [processClusters]
  | cons c rest ih =>
    by_cases hc : c.has_element
    · cases li with
      | none =>
        simp only [processClusters, hc, if_true]
        exact le_trans (Nat.le_succ cnt) (ih ..)
      | timeout i p =>
        cases i with
        | zero => cases p <;> simp [processClusters, hc]
        | succ j =>
          simp only [processClusters, hc, if_true]
          exact le_trans (Nat.le_succ cnt) (ih ..)
      | fatal i =>
        cases i with
        | zero => simp [processClusters, hc]
        | succ j =>
          simp only [processClusters, hc, if_true]
          exact le_trans (Nat.le_succ cnt) (ih ..)
    · simp only [processClusters, hc, if_false, Bool.false_eq_true]
      exact ih ..

theorem streamsExt_processClusters (s : Streams) (cnt : Nat)
    (cs : List GeneCluster) (li : LoopIntr) :
    StreamsExt s (processClusters s cnt cs li).1 := by
  induction cs generalizing s cnt li with
  | nil =>
    cases li with
    | timeout i p => cases p <;> exact streamsExt_refl _
    | _ => exact streamsExt_refl _
  | cons c rest ih =>
    by_cases hc : c.has_element
    · cases li with
      | none =>
        simp only [processClusters, hc, if_true]
        exact streamsExt_trans (streamsExt_write_both ..) (ih ..)
      | timeout i p =>
        cases i with
        | zero =>
          cases p <;> simp only [processClusters, hc, if_true] <;>
            first
              | exact streamsExt_refl _
              | exact streamsExt_write_element2bed6 ..
        | succ j =>
          simp only [processClusters, hc, if_true]
          exact streamsExt_trans (streamsExt_write_both ..) (ih ..)
      | fatal i =>
        cases i with
        | zero =>
          simp only [processClusters, hc, if_true]
          exact streamsExt_write_element2bed6 ..
        | succ j =>
          simp only [processClusters, hc, if_true]
          exact streamsExt_trans (streamsExt_write_both ..) (ih ..)
    · simp only [processClusters, hc, if_false, Bool.false_eq_true]
      exact ih ..

theorem processClusters_ext_none (s : Streams) (cnt : Nat)
    (cs : List GeneCluster) (li : LoopIntr) :
    StreamsExt (processClusters s cnt cs li).1
      (processClusters s cnt cs .none).1 := by
  induction cs generalizing s cnt li with
  | nil =>
    cases li with
    | timeout i p => cases p <;> exact streamsExt_refl _
    | _ => exact streamsExt_refl _
  | cons c rest ih =>
    by_cases hc : c.has_element
    · cases li with
      | none => exact streamsExt_refl _
      | timeout i p =>
        cases i with
        | zero =>
          cases p <;> simp only [processClusters, hc, if_true]
          · exact streamsExt_trans (streamsExt_write_both ..)
              (streamsExt_processClusters ..)
          · exact streamsExt_trans (streamsExt_write_both ..)
              (streamsExt_processClusters ..)
          · exact streamsExt_trans (streamsExt_write2bed12 ..)
              (streamsExt_processClusters ..)
        | succ j =>
          simp only [processClusters, hc, if_true]
          exact ih ..
      | fatal i =>
        cases i with
        | zero =>
          simp only [processClusters, hc, if_true]
          exact streamsExt_trans (streamsExt_write2bed12 ..)
            (streamsExt_processClusters ..)
        | succ j =>
          simp only [processClusters, hc, if_true]
          exact ih ..
    · simp only [processClusters, hc, if_false, Bool.false_eq_true]
      exact ih ..

theorem mem_labels_processClusters {x : String} (s : Streams) (cnt : Nat)
    (cs : List GeneCluster) (li : LoopIntr)
    (hx : x ∈ writtenLabels (processClusters s cnt cs li).1) :
    x ∈ writtenLabels s ∨
      ∃ k, cnt + 1 ≤ k ∧ k ≤ (processClusters s cnt cs li).2.1 ∧
        x = cluster_name k := by
  induction cs generalizing s cnt li with
  | nil =>
    cases li with
    | timeout i p => cases p <;> exact Or.inl hx
    | none => exact Or.inl hx
    | fatal i => exact Or.inl hx
  | cons c rest ih =>
    by_cases hc : c.has_element
    · cases li with
      | none =>
        simp only [processClusters, hc, if_true] at hx ⊢
        rcases ih _ _ _ hx with h | ⟨k, hk1, hk2, hk3⟩
        · rcases mem_labels_write_both h with h' | h'
          · exact Or.inl h'
          · refine Or.inr ⟨cnt + 1, le_refl _, ?_, h'⟩
            exact processClusters_cnt_le ..
        · exact Or.inr ⟨k, by omega, hk2, hk3⟩
      | timeout i p =>
        cases i with
        | zero =>
          cases p <;> simp only [processClusters, hc, if_true] at hx ⊢
          · exact Or.inl hx
          · exact Or.inl hx
          · rcases mem_labels_write_element2bed6 hx with h' | h'
            · exact Or.inl h'
            · exact Or.inr ⟨cnt + 1, le_refl _, le_refl _, h'⟩
        | succ j =>
          simp only [processClusters, hc, if_true] at hx ⊢
          rcases ih _ _ _ hx with h | ⟨k, hk1, hk2, hk3⟩
          · rcases mem_labels_write_both h with h' | h'
            · exact Or.inl h'
            · refine Or.inr ⟨cnt + 1, le_refl _, ?_, h'⟩
              exact processClusters_cnt_le ..
          · exact Or.inr ⟨k, by omega, hk2, hk3⟩
      | fatal i =>
        cases i with
        | zero =>
          simp only [processClusters, hc, if_true] at hx ⊢
          rcases mem_labels_write_element2bed6 hx with h' | h'
          · exact Or.inl h'
          · exact Or.inr ⟨cnt + 1, le_refl _, le_refl _, h'⟩
        | succ j =>
          simp only [processClusters, hc, if_true] at hx ⊢
          rcases ih _ _ _ hx with h | ⟨k, hk1, hk2, hk3⟩
          · rcases mem_labels_write_both h with h' | h'
            · exact Or.inl h'
            · refine Or.inr ⟨cnt + 1, le_refl _, ?_, h'⟩
              exact processClusters_cnt_le ..
          · exact Or.inr ⟨k, by omega, hk2, hk3⟩
    · simp only [processClusters, hc, if_false, Bool.false_eq_true] at hx ⊢
      exact ih _ _ _ hx

theorem mem_labels_processClusters_none (s : Streams) (cnt : Nat)
    (cs : List GeneCluster) (x : String) :
    x ∈ writtenLabels (processClusters s cnt cs .none).1 ↔
      x ∈ writtenLabels s ∨
        ∃ k, cnt + 1 ≤ k ∧ k ≤ (processClusters s cnt cs .none).2.1 ∧
          x = cluster_name k := by
  constructor
  · exact mem_labels_processClusters s cnt cs .none
  · induction cs generalizing s cnt with
    | nil =>
      rintro (h | ⟨k, hk1, hk2, _⟩)
      · exact h
      · simp only [processClusters] at hk2
        omega
    | cons c rest ih =>
      intro h
      by_cases hc : c.has_element
      · simp only [processClusters, hc, if_true] at h ⊢
        rcases h with h | ⟨k, hk1, hk2, hk3⟩
        · exact mem_labels_of_ext
            (streamsExt_trans (streamsExt_write_both ..)
              (streamsExt_processClusters ..))
            h
        · by_cases hk : k = cnt + 1
          · subst hk hk3
            exact mem_labels_of_ext (streamsExt_processClusters ..)
              (name_mem_labels_write_both _ _ hc)
          · exact ih _ _ (Or.inr ⟨k, by omega, hk2, hk3⟩)
      · simp only [processClusters, hc, if_false, Bool.false_eq_true] at h ⊢
        exact ih _ _ h

theorem processRegion_cnt_le (cfg : Config) (s : Streams) (cnt : Nat)
    (inp : RegionInput) : cnt ≤ (processRegion cfg s cnt inp).2.1 := by
  unfold processRegion
  cases effIntr cfg inp.intr <;>
    first
      | exact le_refl _
      | exact processClusters_cnt_le ..

theorem streamsExt_processRegion (cfg : Config) (s : Streams) (cnt : Nat)
    (inp : RegionInput) : StreamsExt s (processRegion cfg s cnt inp).1 := by
  unfold processRegion
  cases effIntr cfg inp.intr <;>
    first
      | exact streamsExt_refl _
      | exact streamsExt_processClusters ..


theorem mem_labels_processRegion {x : String} (cfg : Config) (s : Streams)
    (cnt : Nat) (inp : RegionInput)
    (hx : x ∈ writtenLabels (processRegion cfg s cnt inp).1) :
    x ∈ writtenLabels s ∨
      ∃ k, cnt + 1 ≤ k ∧ k ≤ (processRegion cfg s cnt inp).2.1 ∧
        x = cluster_name k := by
  revert hx
  unfold processRegion
  cases effIntr cfg inp.intr <;> intro hx <;>
    first
      | exact Or.inl hx
      | exact mem_labels_processClusters _ _ _ _ hx

/-- The interrupt, if any, strikes at a region boundary of the cluster
loop: during identify_element, before any cluster of the region has
been numbered or written. -/
def Interrupt.boundary : Interrupt → Bool
  | .none => true
  | .timeoutInIdentify => true
  | .fatalInIdentify => true
  | _ => false

theorem effIntr_boundary {cfg : Config} {i : Interrupt}
    (hb : i.boundary = true) : (effIntr cfg i).boundary = true := by
  unfold effIntr
  by_cases ha : timerArmed cfg
  · simp [ha, hb]
  · simp only [ha, if_false, Bool.false_eq_true]
    cases i <;> simp_all [Interrupt.boundary]

theorem boundary_cases {i : Interrupt} (hb : i.boundary = true) :
    i = .none ∨ i = .timeoutInIdentify ∨ i = .fatalInIdentify := by
  cases i <;> simp_all [Interrupt.boundary]

theorem runRegions_cnt_le (cfg : Config) (clock : Nat) (st : RunState)
    (rs : List RegionInput) :
    st.cluster_indx ≤ (runRegions cfg clock st rs).1.cluster_indx := by
  induction rs generalizing st with
  | nil => exact le_refl _
  | cons inp rest ih =>
    have hr := processRegion_cnt_le cfg st.streams st.cluster_indx inp
    simp only [runRegions]
    split
    · exact le_trans hr (ih
        { streams := (processRegion cfg st.streams st.cluster_indx inp).1,
          cluster_indx := (processRegion cfg st.streams st.cluster_indx inp).2.1,
          timeoutLog := st.timeoutLog })
    · exact le_trans hr (ih
        { streams := (processRegion cfg st.streams st.cluster_indx inp).1,
          cluster_indx := (processRegion cfg st.streams st.cluster_indx inp).2.1,
          timeoutLog := appendLog st.timeoutLog
            (timeoutLogLine (cfg.time_out.getD 0) inp.region) })
    · exact hr

theorem mem_labels_runRegions {x : String} (cfg : Config) (clock : Nat)
    (st : RunState) (rs : List RegionInput)
    (hx : x ∈ writtenLabels (runRegions cfg clock st rs).1.streams) :
    x ∈ writtenLabels st.streams ∨
      ∃ k, st.cluster_indx + 1 ≤ k ∧
        k ≤ (runRegions cfg clock st rs).1.cluster_indx ∧
        x = cluster_name k := by
  induction rs generalizing st with
  | nil => exact Or.inl hx
  | cons inp rest ih =>
    have hcle := processRegion_cnt_le cfg st.streams st.cluster_indx inp
    simp only [runRegions] at hx ⊢
    split at hx
    · rcases ih
        { streams := (processRegion cfg st.streams st.cluster_indx inp).1,
          cluster_indx := (processRegion cfg st.streams st.cluster_indx inp).2.1,
          timeoutLog := st.timeoutLog } hx with h | ⟨k, hk1, hk2, hk3⟩
      · rcases mem_labels_processRegion cfg _ _ _ h with
          h' | ⟨k, hk1, hk2, hk3⟩
        · exact Or.inl h'
        · refine Or.inr ⟨k, hk1, le_trans hk2 ?_, hk3⟩
          exact runRegions_cnt_le cfg clock
            { streams := (processRegion cfg st.streams st.cluster_indx inp).1,
              cluster_indx :=
                (processRegion cfg st.streams st.cluster_indx inp).2.1,
              timeoutLog := st.timeoutLog } rest
      · have hk1' : (processRegion cfg st.streams st.cluster_indx inp).2.1 + 1
            ≤ k := hk1
        exact Or.inr ⟨k, by omega, hk2, hk3⟩
    · rcases ih
        { streams := (processRegion cfg st.streams st.cluster_indx inp).1,
          cluster_indx := (processRegion cfg st.streams st.cluster_indx inp).2.1,
          timeoutLog := appendLog st.timeoutLog
            (timeoutLogLine (cfg.time_out.getD 0) inp.region) } hx with
        h | ⟨k, hk1, hk2, hk3⟩
      · rcases mem_labels_processRegion cfg _ _ _ h with
          h' | ⟨k, hk1, hk2, hk3⟩
        · exact Or.inl h'
        · refine Or.inr ⟨k, hk1, le_trans hk2 ?_, hk3⟩
          exact runRegions_cnt_le cfg clock
            { streams := (processRegion cfg st.streams st.cluster_indx inp).1,
              cluster_indx :=
                (processRegion cfg st.streams st.cluster_indx inp).2.1,
              timeoutLog := appendLog st.timeoutLog
                (timeoutLogLine (cfg.time_out.getD 0) inp.region) } rest
      · have hk1' : (processRegion cfg st.streams st.cluster_indx inp).2.1 + 1
            ≤ k := hk1
        exact Or.inr ⟨k, by omega, hk2, hk3⟩
    · have hx' : x ∈ writtenLabels
          (processRegion cfg st.streams st.cluster_indx inp).1 := hx
      rcases mem_labels_processRegion cfg _ _ _ hx' with
        h' | ⟨k, hk1, hk2, hk3⟩
      · exact Or.inl h'
      · exact Or.inr ⟨k, hk1, hk2, hk3⟩

theorem processRegion_effIntr_none {cfg : Config} (s : Streams) (cnt : Nat)
    (inp : RegionInput) (h : effIntr cfg inp.intr = .none) :
    processRegion cfg s cnt inp = processClusters s cnt inp.clusters .none := by
  unfold processRegion
  rw [h]

theorem processRegion_effIntr_timeoutInIdentify {cfg : Config} (s : Streams)
    (cnt : Nat) (inp : RegionInput)
    (h : effIntr cfg inp.intr = .timeoutInIdentify) :
    processRegion cfg s cnt inp = (s, cnt, .timedOut) := by
  unfold processRegion
  rw [h]

theorem processRegion_effIntr_fatalInIdentify {cfg : Config} (s : Streams)
    (cnt : Nat) (inp : RegionInput)
    (h : effIntr cfg inp.intr = .fatalInIdentify) :
    processRegion cfg s cnt inp = (s, cnt, .fatalErr) := by
  unfold processRegion
  rw [h]

theorem runRegions_cons_completed (cfg : Config) (clock : Nat)
    (st : RunState) (inp : RegionInput) (rest : List RegionInput)
    (h : (processRegion cfg st.streams st.cluster_indx inp).2.2 = .completed) :
    runRegions cfg clock st (inp :: rest) =
      runRegions cfg clock
        { streams := (processRegion cfg st.streams st.cluster_indx inp).1,
          cluster_indx := (processRegion cfg st.streams st.cluster_indx inp).2.1,
          timeoutLog := st.timeoutLog } rest := by
  simp only [runRegions]
  split <;> rename_i h2 <;> rw [h] at h2 <;> first | rfl | cases h2

theorem runRegions_cons_timedOut (cfg : Config) (clock : Nat)
    (st : RunState) (inp : RegionInput) (rest : List RegionInput)
    (h : (processRegion cfg st.streams st.cluster_indx inp).2.2 = .timedOut) :
    runRegions cfg clock st (inp :: rest) =
      runRegions cfg clock
        { streams := (processRegion cfg st.streams st.cluster_indx inp).1,
          cluster_indx := (processRegion cfg st.streams st.cluster_indx inp).2.1,
          timeoutLog := appendLog st.timeoutLog
            (timeoutLogLine (cfg.time_out.getD 0) inp.region) } rest := by
  simp only [runRegions]
  split <;> rename_i h2 <;> rw [h] at h2 <;> first | rfl | cases h2

theorem runRegions_cons_fatal (cfg : Config) (clock : Nat)
    (st : RunState) (inp : RegionInput) (rest : List RegionInput)
    (h : (processRegion cfg st.streams st.cluster_indx inp).2.2 = .fatalErr) :
    runRegions cfg clock st (inp :: rest) =
      ({ st with
          streams := (processRegion cfg st.streams st.cluster_indx inp).1,
          cluster_indx :=
            (processRegion cfg st.streams st.cluster_indx inp).2.1 },
        .error ()) := by
  simp only [runRegions]
  split <;> rename_i h2 <;> rw [h] at h2 <;> first | rfl | cases h2

theorem mem_labels_runRegions_boundary (cfg : Config) (clock : Nat) :
    ∀ (rs : List RegionInput) (st : RunState),
      (∀ inp ∈ rs, inp.intr.boundary = true) → ∀ x : String,
      (x ∈ writtenLabels (runRegions cfg clock st rs).1.streams ↔
        x ∈ writtenLabels st.streams ∨
          ∃ k, st.cluster_indx + 1 ≤ k ∧
            k ≤ (runRegions cfg clock st rs).1.cluster_indx ∧
            x = cluster_name k) := by
  intro rs
  induction rs with
  | nil =>
    intro st hb x
    constructor
    · exact fun h => Or.inl h
    · rintro (h | ⟨k, hk1, hk2, _⟩)
      · exact h
      · have hk2' : k ≤ st.cluster_indx := hk2
        omega
  | cons inp rest ih =>
    intro st hb x
    have hbi := hb inp (List.mem_cons_self inp rest)
    have hbr : ∀ j ∈ rest, j.intr.boundary = true :=
      fun j hj => hb j (List.mem_cons_of_mem _ hj)
    rcases boundary_cases (effIntr_boundary hbi) with he | he | he
    · have hpr := processRegion_effIntr_none st.streams st.cluster_indx inp he
      have hout : (processRegion cfg st.streams st.cluster_indx inp).2.2 =
          .completed := by
        rw [hpr, processClusters_outcome, loopOutcome_none]
      rw [runRegions_cons_completed cfg clock st inp rest hout, hpr]
      have hIH := ih
        { streams :=
            (processClusters st.streams st.cluster_indx inp.clusters .none).1,
          cluster_indx :=
            (processClusters st.streams st.cluster_indx inp.clusters .none).2.1,
          timeoutLog := st.timeoutLog } hbr x
      rw [hIH]
      dsimp only
      constructor
      · rintro (h | ⟨k, hk1, hk2, hk3⟩)
        · rcases (mem_labels_processClusters_none st.streams st.cluster_indx
            inp.clusters x).1 h with h' | ⟨k, hk1, hk2, hk3⟩
          · exact Or.inl h'
          · refine Or.inr ⟨k, hk1, le_trans hk2 ?_, hk3⟩
            exact runRegions_cnt_le cfg clock
              { streams := (processClusters st.streams st.cluster_indx
                  inp.clusters .none).1,
                cluster_indx := (processClusters st.streams st.cluster_indx
                  inp.clusters .none).2.1,
                timeoutLog := st.timeoutLog } rest
        · have hc := processClusters_cnt_le st.streams st.cluster_indx
            inp.clusters LoopIntr.none
          exact Or.inr ⟨k, by omega, hk2, hk3⟩
      · rintro (h | ⟨k, hk1, hk2, hk3⟩)
        · exact Or.inl ((mem_labels_processClusters_none ..).2 (Or.inl h))
        · by_cases hk : k ≤
            (processClusters st.streams st.cluster_indx inp.clusters .none).2.1
          · exact Or.inl ((mem_labels_processClusters_none ..).2
              (Or.inr ⟨k, hk1, hk, hk3⟩))
          · exact Or.inr ⟨k, by omega, hk2, hk3⟩
    · have hpr := processRegion_effIntr_timeoutInIdentify st.streams
        st.cluster_indx inp he
      have hout : (processRegion cfg st.streams st.cluster_indx inp).2.2 =
          .timedOut := by rw [hpr]
      rw [runRegions_cons_timedOut cfg clock st inp rest hout, hpr]
      exact ih
        { streams := st.streams, cluster_indx := st.cluster_indx,
          timeoutLog := appendLog st.timeoutLog
            (timeoutLogLine (cfg.time_out.getD 0) inp.region) } hbr x
    · have hpr := processRegion_effIntr_fatalInIdentify st.streams
        st.cluster_indx inp he
      have hout : (processRegion cfg st.streams st.cluster_indx inp).2.2 =
          .fatalErr := by rw [hpr]
      rw [runRegions_cons_fatal cfg clock st inp rest hout, hpr]
      constructor
      · exact fun h => Or.inl h
      · rintro (h | ⟨k, hk1, hk2, _⟩)
        · exact h
        · have hk2' : k ≤ st.cluster_indx := hk2
          omega

theorem runRegions_log (cfg : Config) (clock : Nat) :
    ∀ (rs : List RegionInput) (st : RunState),
      ((runRegions cfg clock st rs).1.timeoutLog.getD [] =
        st.timeoutLog.getD [] ++ timeoutLines cfg rs) ∧
      ((runRegions cfg clock st rs).1.timeoutLog = Option.none ↔
        st.timeoutLog = Option.none ∧ timeoutLines cfg rs = []) := by
  intro rs
  induction rs with
  | nil =>
    intro st
    exact ⟨by simp [runRegions, timeoutLines],
      by simp [runRegions, timeoutLines]⟩
  | cons inp rest ih =>
    intro st
    cases ho : regionOutcome cfg inp with
    | completed =>
      have hout := (processRegion_outcome cfg st.streams st.cluster_indx
        inp).trans ho
      rw [runRegions_cons_completed cfg clock st inp rest hout]
      have hi := ih
        { streams := (processRegion cfg st.streams st.cluster_indx inp).1,
          cluster_indx := (processRegion cfg st.streams st.cluster_indx inp).2.1,
          timeoutLog := st.timeoutLog }
      simp only [timeoutLines, ho]
      exact ⟨by simpa using hi.1, by simpa using hi.2⟩
    | timedOut =>
      have hout := (processRegion_outcome cfg st.streams st.cluster_indx
        inp).trans ho
      rw [runRegions_cons_timedOut cfg clock st inp rest hout]
      have hi := ih
        { streams := (processRegion cfg st.streams st.cluster_indx inp).1,
          cluster_indx := (processRegion cfg st.streams st.cluster_indx inp).2.1,
          timeoutLog := appendLog st.timeoutLog
            (timeoutLogLine (cfg.time_out.getD 0) inp.region) }
      simp only [timeoutLines, ho]
      constructor
      · rw [hi.1]
        simp [appendLog]
      · rw [hi.2]
        simp [appendLog]
    | fatalErr =>
      have hout := (processRegion_outcome cfg st.streams st.cluster_indx
        inp).trans ho
      rw [runRegions_cons_fatal cfg clock st inp rest hout]
      simp [timeoutLines, ho]

theorem runRegions_ok_iff (cfg : Config) (clock : Nat) :
    ∀ (rs : List RegionInput) (st : RunState),
      ((runRegions cfg clock st rs).2 = .ok () ↔
        ∀ inp ∈ rs, regionOutcome cfg inp ≠ .fatalErr) := by
  intro rs
  induction rs with
  | nil => intro st; simp [runRegions]
  | cons inp rest ih =>
    intro st
    cases ho : regionOutcome cfg inp with
    | completed =>
      have hout := (processRegion_outcome cfg st.streams st.cluster_indx
        inp).trans ho
      rw [runRegions_cons_completed cfg clock st inp rest hout, ih _]
      constructor
      · intro h j hj
        rcases List.mem_cons.1 hj with rfl | hj'
        · rw [ho]; simp
        · exact h j hj'
      · exact fun h j hj => h j (List.mem_cons_of_mem _ hj)
    | timedOut =>
      have hout := (processRegion_outcome cfg st.streams st.cluster_indx
        inp).trans ho
      rw [runRegions_cons_timedOut cfg clock st inp rest hout, ih _]
      constructor
      · intro h j hj
        rcases List.mem_cons.1 hj with rfl | hj'
        · rw [ho]; simp
        · exact h j hj'
      · exact fun h j hj => h j (List.mem_cons_of_mem _ hj)
    | fatalErr =>
      have hout := (processRegion_outcome cfg st.streams st.cluster_indx
        inp).trans ho
      rw [runRegions_cons_fatal cfg clock st inp rest hout]
      constructor
      · intro h
        exact absurd h (by simp)
      · intro h
        exact absurd ho (h inp (List.mem_cons_self inp rest))

theorem runRegions_fatal_truncate (cfg : Config) (clock : Nat) :
    ∀ (pre : List RegionInput) (st : RunState) (inp : RegionInput)
      (post : List RegionInput),
      regionOutcome cfg inp = .fatalErr →
      runRegions cfg clock st (pre ++ inp :: post) =
        runRegions cfg clock st (pre ++ [inp]) := by
  intro pre
  induction pre with
  | nil =>
    intro st inp post hf
    have hout := (processRegion_outcome cfg st.streams st.cluster_indx
      inp).trans hf
    simp only [List.nil_append]
    rw [runRegions_cons_fatal cfg clock st inp post hout,
      runRegions_cons_fatal cfg clock st inp [] hout]
  | cons p pretail ih =>
    intro st inp post hf
    simp only [List.cons_append]
    cases ho : regionOutcome cfg p with
    | completed =>
      have hout := (processRegion_outcome cfg st.streams st.cluster_indx
        p).trans ho
      rw [runRegions_cons_completed cfg clock st p _ hout,
        runRegions_cons_completed cfg clock st p _ hout]
      exact ih _ inp post hf
    | timedOut =>
      have hout := (processRegion_outcome cfg st.streams st.cluster_indx
        p).trans ho
      rw [runRegions_cons_timedOut cfg clock st p _ hout,
        runRegions_cons_timedOut cfg clock st p _ hout]
      exact ih _ inp post hf
    | fatalErr =>
      have hout := (processRegion_outcome cfg st.streams st.cluster_indx
        p).trans ho
      rw [runRegions_cons_fatal cfg clock st p _ hout,
        runRegions_cons_fatal cfg clock st p _ hout]

theorem timeoutLines_eq_nil (cfg : Config) :
    ∀ (rs : List RegionInput),
      (∀ inp ∈ rs, regionOutcome cfg inp ≠ .timedOut) →
      timeoutLines cfg rs = [] := by
  intro rs
  induction rs with
  | nil => intro _; rfl
  | cons inp rest ih =>
    intro h
    have h1 := h inp (List.mem_cons_self inp rest)
    cases ho : regionOutcome cfg inp with
    | completed =>
      simp only [timeoutLines, ho]
      simp only [reduceCtorEq, if_false]
      exact ih (fun j hj => h j (List.mem_cons_of_mem _ hj))
    | timedOut => exact absurd ho h1
    | fatalErr => simp [timeoutLines, ho]

/-- States of the per-region deadline timer of spec 4.4, realised by
the SIGALRM calls of lines 184-186 and 203-204. -/
inductive TimerState
  | Idle
  | Armed
  | Fired
  | Disarmed
deriving DecidableEq, Repr

/-- Timer state right after the region start: signal.alarm(t) at
line 186 schedules SIGALRM only when args.time_out is not None
(line 184) and t is positive. -/
def timerAtStart (cfg : Config) : TimerState :=
  if timerArmed cfg then .Armed else .Idle

/-- Timer state at the end of one region body: on normal completion
signal.alarm(0) at line 204 disarms it; when TimeOutError was raised
the one-shot alarm has already fired; on a fatal error the exception
skips line 204, so the alarm is left armed while the run terminates. -/
def timerAtBoundary (cfg : Config) (o : ROutcome) : TimerState :=
  if timerArmed cfg then
    match o with
    | .completed => .Disarmed
    | .timedOut => .Fired
    | .fatalErr => .Armed
  else .Idle

theorem regionOutcome_ne_timedOut_of_unarmed {cfg : Config}
    {inp : RegionInput} (h : timerArmed cfg = false) :
    regionOutcome cfg inp ≠ .timedOut := by
  unfold regionOutcome effIntr
  simp only [h, Bool.false_eq_true, if_false]
  cases inp.intr with
  | none =>
    rw [loopOutcome_none]
    simp
  | timeoutInIdentify =>
    rw [loopOutcome_none]
    simp
  | fatalInIdentify => simp
  | timeout i p =>
    rw [loopOutcome_none]
    simp
  | fatalInTranscript i =>
    show loopOutcome inp.clusters (LoopIntr.fatal i) ≠ ROutcome.timedOut
    exact loopOutcome_fatal_ne_timedOut inp.clusters i

/-- The run state at the top of the with-block: fresh streams, the
counter initialised at line 180, and whatever timeout log file content
is already on disk. -/
def initRunState (initLog : Option (List String)) : RunState :=
  { streams := emptyStreams, cluster_indx := 0, timeoutLog := initLog }

/-- The handle after close() has flushed and closed the ten files of a
fully opened handle. -/
def closedHandle (s : Streams) : OutputHandle :=
  { f_intron := Option.some ⟨s.f_intron, true⟩
    f_internal_exon := Option.some ⟨s.f_internal_exon, true⟩
    f_tss_exon := Option.some ⟨s.f_tss_exon, true⟩
    f_tes_exon := Option.some ⟨s.f_tes_exon, true⟩
    f_isoF := Option.some ⟨s.f_isoF, true⟩
    f_isoA := Option.some ⟨s.f_isoA, true⟩
    f_isoR := Option.some ⟨s.f_isoR, true⟩
    f_isoM := Option.some ⟨s.f_isoM, true⟩
    f_isoC := Option.some ⟨s.f_isoC, true⟩
    f_isoP := Option.some ⟨s.f_isoP, true⟩ }

theorem toHandle_close (s : Streams) :
    (toHandle s).close = (closedHandle s, Option.none) := rfl

theorem allClosed_closedHandle (s : Streams) :
    allClosed (closedHandle s) = true := rfl

theorem mainModel_ok {cfg : Config} {pp : Option String}
    {isfile : String → Bool} {clock : Nat} {initLog : Option (List String)}
    {rs : List RegionInput} (hok : check_paraclu pp isfile = .ok ()) :
    mainModel cfg pp isfile clock initLog rs =
      ({ out_dir_created := true,
         handle := Option.some (closedHandle
           (runRegions cfg clock (initRunState initLog) rs).1.streams),
         timeoutLog := (runRegions cfg clock (initRunState initLog) rs).1.timeoutLog },
       match (runRegions cfg clock (initRunState initLog) rs).2 with
       | .ok _ => .ok ()
       | .error _ => .error .fatalCollab) := by
  unfold mainModel
  split
  · rename_i msg heq
    rw [hok] at heq
    cases heq
  · rfl

/-- Configuration with a one-second deadline. -/
def cfg1 : Config := { time_out := Option.some 1 }

/-- Configuration with no deadline (the default of line 62). -/
def cfgNone : Config := { time_out := Option.none }

def regA : Region := { chrom := "chr1", start := 0, stop := 100 }

def regB : Region := { chrom := "chr2", start := 50, stop := 200 }

/-- A cluster with one intron element record and one isoF isoform. -/
def clusterA : GeneCluster := { intron := ["e1"], trans := { isoF := ["i1"] } }

/-- A cluster with one intron element record and no isoforms. -/
def clusterB : GeneCluster := { intron := ["e2"] }

/-- Region input that times out after the counter increment of
line 195 but before the element write of line 197, followed by a
normal region: the ClusterId c_1 is consumed but never written. -/
def gapRun : List RegionInput :=
  [⟨regA, [clusterA], .timeout 0 .beforeElemWrite⟩,
   ⟨regB, [clusterB], .none⟩]

/-- Region that times out between the element write of line 197 and
the isoform write of line 201. -/
def pInp : RegionInput := ⟨regA, [clusterA], .timeout 0 .beforeIsoWrite⟩

def partialRun : List RegionInput := [pInp]

/-- Region whose identify_transcript call raises a fatal error after
the element records were committed. -/
def fInp : RegionInput := ⟨regA, [clusterA], .fatalInTranscript 0⟩

def fatalRun : List RegionInput := [fInp]

/-- One region that completes normally. -/
def cleanRun : List RegionInput := [⟨regA, [clusterB], .none⟩]

/-- C1.  The claim as stated fails: the counter is incremented at
line 195 before the first write of line 197, so a timeout striking
between the two consumes a ClusterId that never reaches any stream
and leaves a gap.  What does hold: every label written is c_k for
some k between 1 and the final counter value, and when every timeout
or fatal error strikes during element identification (before any
cluster of its region is numbered) the written label set is exactly
the image of 1..n. -/
theorem c1_clusterIds_amended (cfg : Config) (clock : Nat)
    (initLog : Option (List String)) (rs : List RegionInput) :
    (∀ x ∈ writtenLabels
        (runRegions cfg clock (initRunState initLog) rs).1.streams,
      ∃ k, 1 ≤ k ∧
        k ≤ (runRegions cfg clock (initRunState initLog) rs).1.cluster_indx ∧
        x = cluster_name k) ∧
    ((∀ inp ∈ rs, inp.intr.boundary = true) →
      ∀ x, x ∈ writtenLabels
          (runRegions cfg clock (initRunState initLog) rs).1.streams ↔
        ∃ k, 1 ≤ k ∧
          k ≤ (runRegions cfg clock (initRunState initLog) rs).1.cluster_indx ∧
          x = cluster_name k) := by
  constructor
  · intro x hx
    rcases mem_labels_runRegions cfg clock (initRunState initLog) rs hx with
      h | ⟨k, hk1, hk2, hk3⟩
    · exact absurd h (List.not_mem_nil x)
    · exact ⟨k, hk1, hk2, hk3⟩
  · intro hb x
    rw [mem_labels_runRegions_boundary cfg clock rs (initRunState initLog) hb x]
    constructor
    · rintro (h | ⟨k, hk1, hk2, hk3⟩)
      · exact absurd h (List.not_mem_nil x)
      · exact ⟨k, hk1, hk2, hk3⟩
    · rintro ⟨k, hk1, hk2, hk3⟩
      exact Or.inr ⟨k, hk1, hk2, hk3⟩

/-- C1 witness: in a run of one normally completing region the label
c_1 is written. -/
theorem c1_clusterIds_witness :
    cluster_name 1 ∈ writtenLabels
      (runRegions cfg1 0 (initRunState Option.none) cleanRun).1.streams :=
  ((c1_clusterIds_amended cfg1 0 Option.none cleanRun).2 (by decide)
    (cluster_name 1)).mpr ⟨1, le_refl 1, by decide, rfl⟩

/-- C1 counterexample: in gapRun the deadline fires after ClusterId 1
is consumed and before anything is written, and the next region uses
ClusterId 2, so the written label set is the single label c_2 and is
not of the form c_1..c_n for any n. -/
theorem c1_clusterIds_counterexample :
    ¬ ∃ n, ∀ x,
      x ∈ writtenLabels
          (runRegions cfg1 0 (initRunState Option.none) gapRun).1.streams ↔
        ∃ k, 1 ≤ k ∧ k ≤ n ∧ x = cluster_name k := by
  rintro ⟨n, h⟩
  rcases Nat.eq_zero_or_pos n with hn | hn
  · obtain ⟨k, hk1, hk2, _⟩ := (h (cluster_name 2)).1 (by decide)
    omega
  · have h1 := (h (cluster_name 1)).2 ⟨1, le_refl 1, hn, rfl⟩
    have h2 : cluster_name 1 ∉ writtenLabels
        (runRegions cfg1 0 (initRunState Option.none) gapRun).1.streams := by
      decide
    exact h2 h1

/-- C2.  The claim as stated fails: there is no rollback, so records
committed before the deadline fires stay in the streams.  What does
hold: a timeout striking during identify_element commits nothing for
the region, and in general the streams after an interrupted region
are an append-stage of the streams the fully completed region would
have produced (the timeout only abandons the remaining work). -/
theorem c2_timeout_partial_amended (cfg : Config) (s : Streams) (cnt : Nat)
    (inp : RegionInput) :
    (effIntr cfg inp.intr = .timeoutInIdentify →
      processRegion cfg s cnt inp = (s, cnt, .timedOut)) ∧
    StreamsExt (processRegion cfg s cnt inp).1
      (processRegion cfg s cnt { inp with intr := Interrupt.none }).1 := by
  constructor
  · exact processRegion_effIntr_timeoutInIdentify s cnt inp
  · have hnone : effIntr cfg Interrupt.none = Interrupt.none := by
      unfold effIntr
      by_cases h : timerArmed cfg <;> simp [h]
    have hR := processRegion_effIntr_none s cnt
      { inp with intr := Interrupt.none } hnone
    rw [hR]
    unfold processRegion
    cases effIntr cfg inp.intr with
    | none => exact processClusters_ext_none ..
    | timeoutInIdentify => exact streamsExt_processClusters ..
    | fatalInIdentify => exact streamsExt_processClusters ..
    | timeout i p => exact processClusters_ext_none ..
    | fatalInTranscript i => exact processClusters_ext_none ..

/-- C2 witness: a timeout during identify_element leaves the streams
and the counter untouched. -/
theorem c2_timeout_partial_witness :
    processRegion cfg1 emptyStreams 0 ⟨regA, [clusterA], .timeoutInIdentify⟩ =
      (emptyStreams, 0, .timedOut) :=
  (c2_timeout_partial_amended cfg1 emptyStreams 0
    ⟨regA, [clusterA], .timeoutInIdentify⟩).1 rfl

/-- C2 counterexample: pInp times out (its line is in the timeout
log), yet the element record of its cluster, labelled c_1, is
committed to the intron stream: not all-or-nothing. -/
theorem c2_timeout_partial_counterexample :
    regionOutcome cfg1 pInp = .timedOut ∧
    cluster_name 1 ∈ writtenLabels
      (runRegions cfg1 0 (initRunState Option.none) partialRun).1.streams := by
  exact ⟨by decide, by decide⟩

/-- Drop the clusters without elements from the identify_element
result of a region. -/
def dropEmptyClusters (inp : RegionInput) : RegionInput :=
  { inp with clusters := inp.clusters.filter (fun c => c.has_element) }

theorem processClusters_filter (s : Streams) (cnt : Nat)
    (cs : List GeneCluster) (li : LoopIntr) :
    processClusters s cnt (cs.filter (fun c => c.has_element)) li =
      processClusters s cnt cs li := by
  induction cs generalizing s cnt li with
  | nil => rfl
  | cons c rest ih =>
    by_cases hc : c.has_element
    · simp only [List.filter_cons, hc, if_true]
      cases li with
      | none =>
        simp only [processClusters, hc, if_true]
        exact ih ..
      | timeout i p =>
        cases i with
        | zero => cases p <;> simp [processClusters, hc]
        | succ j =>
          simp only [processClusters, hc, if_true]
          exact ih ..
      | fatal i =>
        cases i with
        | zero => simp [processClusters, hc]
        | succ j =>
          simp only [processClusters, hc, if_true]
          exact ih ..
    · simp only [List.filter_cons, hc, Bool.false_eq_true, if_false]
      simp only [processClusters, hc, Bool.false_eq_true, if_false]
      exact ih ..

theorem processRegion_filter (cfg : Config) (s : Streams) (cnt : Nat)
    (inp : RegionInput) :
    processRegion cfg s cnt (dropEmptyClusters inp) =
      processRegion cfg s cnt inp := by
  unfold processRegion
  have hintr : (dropEmptyClusters inp).intr = inp.intr := rfl
  rw [hintr]
  cases effIntr cfg inp.intr <;>
    first
      | rfl
      | exact processClusters_filter ..

/-- C3.  Clusters with no elements are skipped by the continue of
line 194: removing them from every identify_element result changes
nothing in the run, so an empty cluster is never assigned a ClusterId
and contributes no record to any stream. -/
theorem c3_empty_clusters_skipped (cfg : Config) (clock : Nat)
    (st : RunState) (rs : List RegionInput) :
    runRegions cfg clock st (rs.map dropEmptyClusters) =
      runRegions cfg clock st rs := by
  induction rs generalizing st with
  | nil => rfl
  | cons inp rest ih =>
    simp only [List.map_cons]
    have hpr := processRegion_filter cfg st.streams st.cluster_indx inp
    cases ho : (processRegion cfg st.streams st.cluster_indx inp).2.2 with
    | completed =>
      have ho2 : (processRegion cfg st.streams st.cluster_indx
          (dropEmptyClusters inp)).2.2 = .completed := by rw [hpr, ho]
      rw [runRegions_cons_completed cfg clock st _ _ ho2,
        runRegions_cons_completed cfg clock st _ _ ho, hpr]
      exact ih _
    | timedOut =>
      have ho2 : (processRegion cfg st.streams st.cluster_indx
          (dropEmptyClusters inp)).2.2 = .timedOut := by rw [hpr, ho]
      rw [runRegions_cons_timedOut cfg clock st _ _ ho2,
        runRegions_cons_timedOut cfg clock st _ _ ho, hpr]
      exact ih _
    | fatalErr =>
      have ho2 : (processRegion cfg st.streams st.cluster_indx
          (dropEmptyClusters inp)).2.2 = .fatalErr := by rw [hpr, ho]
      rw [runRegions_cons_fatal cfg clock st _ _ ho2,
        runRegions_cons_fatal cfg clock st _ _ ho, hpr]

/-- C4.  What holds of close() (lines 117-127): on a fully opened
handle it closes all ten files, raises nothing, preserves the
committed records, and calling it a second time is a no-op that again
raises nothing.  The safe-on-partially-opened-handles part of the
claim is refuted separately. -/
theorem c4_close_amended
    (f1 f2 f3 f4 f5 f6 f7 f8 f9 f10 : StreamFile) :
    OutputHandle.close
        ⟨Option.some f1, Option.some f2, Option.some f3, Option.some f4,
         Option.some f5, Option.some f6, Option.some f7, Option.some f8,
         Option.some f9, Option.some f10⟩ =
      (⟨Option.some { f1 with closed := true },
        Option.some { f2 with closed := true },
        Option.some { f3 with closed := true },
        Option.some { f4 with closed := true },
        Option.some { f5 with closed := true },
        Option.some { f6 with closed := true },
        Option.some { f7 with closed := true },
        Option.some { f8 with closed := true },
        Option.some { f9 with closed := true },
        Option.some { f10 with closed := true }⟩, Option.none) ∧
    OutputHandle.close
        ⟨Option.some { f1 with closed := true },
         Option.some { f2 with closed := true },
         Option.some { f3 with closed := true },
         Option.some { f4 with closed := true },
         Option.some { f5 with closed := true },
         Option.some { f6 with closed := true },
         Option.some { f7 with closed := true },
         Option.some { f8 with closed := true },
         Option.some { f9 with closed := true },
         Option.some { f10 with closed := true }⟩ =
      (⟨Option.some { f1 with closed := true },
        Option.some { f2 with closed := true },
        Option.some { f3 with closed := true },
        Option.some { f4 with closed := true },
        Option.some { f5 with closed := true },
        Option.some { f6 with closed := true },
        Option.some { f7 with closed := true },
        Option.some { f8 with closed := true },
        Option.some { f9 with closed := true },
        Option.some { f10 with closed := true }⟩, Option.none) ∧
    allClosed
        ⟨Option.some { f1 with closed := true },
         Option.some { f2 with closed := true },
         Option.some { f3 with closed := true },
         Option.some { f4 with closed := true },
         Option.some { f5 with closed := true },
         Option.some { f6 with closed := true },
         Option.some { f7 with closed := true },
         Option.some { f8 with closed := true },
         Option.some { f9 with closed := true },
         Option.some { f10 with closed := true }⟩ = true := by
  exact ⟨rfl, rfl, rfl⟩

/-- A handle as left by enter when the third open (tss_exon.bed6,
line 98) raised: the first two attributes exist, the rest were never
assigned. -/
def halfOpenHandle : OutputHandle :=
  { f_intron := Option.some ⟨[], false⟩
    f_internal_exon := Option.some ⟨[], false⟩
    f_tss_exon := Option.none
    f_tes_exon := Option.none
    f_isoF := Option.none
    f_isoA := Option.none
    f_isoR := Option.none
    f_isoM := Option.none
    f_isoC := Option.none
    f_isoP := Option.none }

/-- C4 counterexample: close() on a handle whose third open failed is
not safe: it closes the first two files, then raises AttributeError
when it reaches the missing attribute, leaving nothing else done. -/
theorem c4_close_counterexample :
    (halfOpenHandle.close).2 = Option.some "AttributeError: f_tss_exon" ∧
    (halfOpenHandle.close).1.f_intron = Option.some ⟨[], true⟩ ∧
    (halfOpenHandle.close).1.f_internal_exon = Option.some ⟨[], true⟩ := by
  exact ⟨rfl, rfl, rfl⟩

/-- C5.  What holds: whenever check_paraclu passes, the with-exit of
lines 108-109 runs on every path out of the region loop, so the
final handle is the fully closed bundle holding exactly the records
the loop committed, and a fatal region makes the run ignore every
later region.  The exactly-regions-1-to-k-minus-1 part of the claim
is refuted separately: the fatal region itself may already have
committed records which are kept. -/
theorem c5_streams_closed_amended (cfg : Config) (pp : Option String)
    (isfile : String → Bool) (clock : Nat) (initLog : Option (List String))
    (rs pre post : List RegionInput) (st : RunState) (inp : RegionInput) :
    (check_paraclu pp isfile = .ok () →
      (mainModel cfg pp isfile clock initLog rs).1.handle =
        Option.some (closedHandle
          (runRegions cfg clock (initRunState initLog) rs).1.streams) ∧
      allClosed (closedHandle
        (runRegions cfg clock (initRunState initLog) rs).1.streams) = true) ∧
    (regionOutcome cfg inp = .fatalErr →
      runRegions cfg clock st (pre ++ inp :: post) =
        runRegions cfg clock st (pre ++ [inp])) := by
  constructor
  · intro hok
    rw [mainModel_ok hok]
    exact ⟨rfl, allClosed_closedHandle _⟩
  · exact runRegions_fatal_truncate cfg clock pre st inp post

/-- C5 witness: after a fatal error in the only region, the handle is
present and fully closed. -/
theorem c5_streams_closed_witness :
    (mainModel cfg1 Option.none (fun _ => true) 0 Option.none
        fatalRun).1.handle =
      Option.some (closedHandle
        (runRegions cfg1 0 (initRunState Option.none) fatalRun).1.streams) :=
  ((c5_streams_closed_amended cfg1 Option.none (fun _ => true) 0 Option.none
    fatalRun [] [] (initRunState Option.none) fInp).1 rfl).1

/-- C5 counterexample: with a fatal error on region k = 1 the run
terminates with the fatal result, yet the closed intron stream
contains the record the fatal region committed before failing, so
the files do not contain exactly the records of regions 1..k-1
(which would be none). -/
theorem c5_streams_closed_counterexample :
    (mainModel cfg1 Option.none (fun _ => true) 0 Option.none fatalRun).2 =
      .error .fatalCollab ∧
    ((mainModel cfg1 Option.none (fun _ => true) 0 Option.none
        fatalRun).1.handle.map (fun h => h.f_intron)) =
      Option.some (Option.some ⟨[("e1", "c_1")], true⟩) := by
  exact ⟨rfl, by decide⟩

/-- C6.  What holds: the timeout log grows by exactly one line per
timed-out region, the line being the format of line 208 built from
the configured deadline and the region identity.  The claim that the
line records a timestamp is refuted separately: the format reads no
clock. -/
theorem c6_timeout_log_amended (cfg : Config) (clock : Nat)
    (initLog : Option (List String)) (rs : List RegionInput) :
    (runRegions cfg clock (initRunState initLog) rs).1.timeoutLog.getD [] =
      initLog.getD [] ++ timeoutLines cfg rs :=
  (runRegions_log cfg clock rs (initRunState initLog)).1

/-- C6 counterexample: the run writes the same single log line
whatever the ambient clock value is, and that line holds only the
deadline and the region coordinates, so no timestamp is recorded. -/
theorem c6_timeout_log_counterexample :
    (runRegions cfg1 5 (initRunState Option.none) partialRun).1.timeoutLog =
      Option.some ["TimeOut (1s): chr1\t0\t100\n"] ∧
    (runRegions cfg1 999999 (initRunState Option.none)
        partialRun).1.timeoutLog =
      (runRegions cfg1 5 (initRunState Option.none) partialRun).1.timeoutLog := by
  exact ⟨by decide, by decide⟩

/-- C7.  The only locally handled error is TimeOutError (line 205):
the run result is ok exactly when no region suffers a fatal error,
the only other result is the propagated fatal error (which makes the
interpreter exit non-zero), and on every result the ten streams were
closed before main returns. -/
theorem c7_error_propagation (cfg : Config) (pp : Option String)
    (isfile : String → Bool) (clock : Nat) (initLog : Option (List String))
    (rs : List RegionInput) (hok : check_paraclu pp isfile = .ok ()) :
    ((mainModel cfg pp isfile clock initLog rs).2 = .ok () ↔
      ∀ inp ∈ rs, regionOutcome cfg inp ≠ .fatalErr) ∧
    ((mainModel cfg pp isfile clock initLog rs).2 = .ok () ∨
      (mainModel cfg pp isfile clock initLog rs).2 = .error .fatalCollab) ∧
    (mainModel cfg pp isfile clock initLog rs).1.handle =
      Option.some (closedHandle
        (runRegions cfg clock (initRunState initLog) rs).1.streams) := by
  rw [mainModel_ok hok]
  refine ⟨?_, ?_, rfl⟩
  · cases hr : (runRegions cfg clock (initRunState initLog) rs).2 with
    | ok v =>
      constructor
      · intro _
        exact (runRegions_ok_iff cfg clock rs (initRunState initLog)).1 hr
      · intro _
        rfl
    | error e =>
      constructor
      · intro h
        exact absurd h (by simp)
      · intro hall
        have hok2 := (runRegions_ok_iff cfg clock rs (initRunState initLog)).2 hall
        rw [hr] at hok2
        exact absurd hok2 (by simp)
  · cases hr : (runRegions cfg clock (initRunState initLog) rs).2 with
    | ok v => exact Or.inl rfl
    | error e => exact Or.inr rfl

/-- C7 witness: a run with only timeouts and completions exits ok. -/
theorem c7_error_propagation_witness :
    (mainModel cfg1 Option.none (fun _ => true) 0 Option.none partialRun).2 =
      .ok () :=
  ((c7_error_propagation cfg1 Option.none (fun _ => true) 0 Option.none
    partialRun rfl).1).mpr (by decide)

/-- C8.  The timer state machine of the SIGALRM calls: the timer is
armed at region start only when a deadline is configured; with no
configured deadline it stays Idle and no region can time out; normal
completion disarms it before the boundary; and no region that is
followed by another (that is, any region whose outcome is not fatal)
leaves the timer armed across the boundary. -/
theorem c8_timer_state_machine (cfg : Config) (inp : RegionInput) :
    (timerAtStart cfg = .Armed → cfg.time_out.isSome = true) ∧
    (cfg.time_out = Option.none →
      timerAtStart cfg = .Idle ∧ regionOutcome cfg inp ≠ .timedOut) ∧
    (regionOutcome cfg inp = .completed →
      timerAtBoundary cfg (regionOutcome cfg inp) ≠ .Armed ∧
      (timerArmed cfg = true →
        timerAtBoundary cfg (regionOutcome cfg inp) = .Disarmed)) ∧
    (regionOutcome cfg inp ≠ .fatalErr →
      timerAtBoundary cfg (regionOutcome cfg inp) ≠ .Armed) := by
  refine ⟨?_, ?_, ?_, ?_⟩
  · intro h
    unfold timerAtStart at h
    by_cases ha : timerArmed cfg = true
    · unfold timerArmed at ha
      cases hco : cfg.time_out with
      | none => rw [hco] at ha; exact absurd ha (by simp)
      | some t => rfl
    · rw [if_neg ha] at h
      exact absurd h (by simp)
  · intro h
    have ha : timerArmed cfg = false := by
      unfold timerArmed
      rw [h]
    constructor
    · unfold timerAtStart
      rw [ha]
      rfl
    · exact regionOutcome_ne_timedOut_of_unarmed ha
  · intro h
    rw [h]
    unfold timerAtBoundary
    by_cases ha : timerArmed cfg = true
    · rw [if_pos ha]
      exact ⟨by simp, fun _ => rfl⟩
    · rw [if_neg ha]
      exact ⟨by simp, fun haa => absurd haa ha⟩
  · intro h
    unfold timerAtBoundary
    by_cases ha : timerArmed cfg = true
    · rw [if_pos ha]
      cases ho : regionOutcome cfg inp with
      | completed => simp
      | timedOut => simp
      | fatalErr => exact absurd ho h
    · rw [if_neg ha]
      simp

/-- C8 witness: with no configured deadline the timer never leaves
Idle. -/
theorem c8_timer_state_machine_witness :
    timerAtStart cfgNone = .Idle :=
  ((c8_timer_state_machine cfgNone ⟨regA, [clusterB], Interrupt.none⟩).2.1
    rfl).1

/-- C9.  What holds: the log file is only ever touched by the append
of line 207, so a run that starts with no timeout log on disk and in
which no region times out ends with no timeout log file.  The claim
as stated is refuted separately: a pre-existing file survives a run
with no timeouts, because append mode never removes it. -/
theorem c9_no_timeout_no_log_amended (cfg : Config) (pp : Option String)
    (isfile : String → Bool) (clock : Nat) (rs : List RegionInput)
    (hok : check_paraclu pp isfile = .ok ())
    (hnt : ∀ inp ∈ rs, regionOutcome cfg inp ≠ .timedOut) :
    (mainModel cfg pp isfile clock Option.none rs).1.timeoutLog =
      Option.none := by
  rw [mainModel_ok hok]
  exact (runRegions_log cfg clock rs (initRunState Option.none)).2.mpr
    ⟨rfl, timeoutLines_eq_nil cfg rs hnt⟩

/-- C9 witness: a fresh run of one completed region leaves no timeout
log file. -/
theorem c9_no_timeout_no_log_witness :
    (mainModel cfg1 Option.none (fun _ => true) 0 Option.none
        cleanRun).1.timeoutLog = Option.none :=
  c9_no_timeout_no_log_amended cfg1 Option.none (fun _ => true) 0 cleanRun
    rfl (by decide)

/-- C9 counterexample: a run in which no region times out but whose
output directory already holds a timeout log file ends with that file
still present, so the directory does contain a timeout log file at
the end of such a run. -/
theorem c9_no_timeout_no_log_counterexample :
    (∀ inp ∈ cleanRun, regionOutcome cfg1 inp ≠ .timedOut) ∧
    (mainModel cfg1 Option.none (fun _ => true) 0
        (Option.some ["stale"]) cleanRun).1.timeoutLog =
      Option.some ["stale"] := by
  exact ⟨by decide, by decide⟩

/-- C10.  check_paraclu (line 152) runs before load_ann, before the
with-statement of line 181 and before any region: when a paraclu path
is supplied and either required file is missing, main raises
FileNotFoundError with the output directory not created, no stream
opened and nothing processed or logged; with no paraclu path the
check is skipped (the filesystem is never consulted) and no
FileNotFoundError can arise. -/
theorem c10_check_paraclu_first (cfg : Config) (p : String)
    (isfile : String → Bool) (clock : Nat) (initLog : Option (List String))
    (rs : List RegionInput) :
    ((isfile (p ++ "/paraclu") = false ∨
        isfile (p ++ "/paraclu-cut.sh") = false) →
      (mainModel cfg (Option.some p) isfile clock initLog rs).1 =
        { out_dir_created := false, handle := Option.none,
          timeoutLog := initLog } ∧
      ∃ msg, (mainModel cfg (Option.some p) isfile clock initLog rs).2 =
        .error (.fileNotFound msg)) ∧
    (mainModel cfg Option.none isfile clock initLog rs =
      mainModel cfg Option.none (fun _ => false) clock initLog rs) ∧
    (∀ msg, (mainModel cfg Option.none isfile clock initLog rs).2 ≠
      .error (.fileNotFound msg)) := by
  refine ⟨?_, rfl, ?_⟩
  · intro hmiss
    have herr : ∃ msg, check_paraclu (Option.some p) isfile = .error msg := by
      unfold check_paraclu
      rcases hmiss with h | h
      · simp [h]
      · by_cases h1 : isfile (p ++ "/paraclu") = true
        · simp [h1, h]
        · simp [h1]
    obtain ⟨msg, hmsg⟩ := herr
    unfold mainModel
    rw [hmsg]
    exact ⟨rfl, ⟨msg, rfl⟩⟩
  · intro msg
    rw [mainModel_ok (rfl :
      check_paraclu Option.none isfile = Except.ok ())]
    cases hr : (runRegions cfg clock (initRunState initLog) rs).2 with
    | ok v => simp
    | error e => simp

/-- C10 witness: with a paraclu path on an empty filesystem, main
stops before creating anything. -/
theorem c10_check_paraclu_first_witness :
    (mainModel cfg1 (Option.some "/opt/paraclu") (fun _ => false) 0
        Option.none []).1 =
      { out_dir_created := false, handle := Option.none,
        timeoutLog := Option.none } :=
  ((c10_check_paraclu_first cfg1 "/opt/paraclu" (fun _ => false) 0
    Option.none []).1 (Or.inl rfl)).1
